import Mathlib

/-!
Verification of the kapan position-move UI logic.

This file gives a shallow embedding, in Lean 4, of the pure computation
kernels of the repository:

* the health-factor calculator of
  `packages/nextjs/components/modals/MovePositionModal.tsx`
  (functions `getLtBps`, `price8`, `toUsd`, `computeHF`) and the
  unweighted variant of the modal file found under `unnamed/part_000`;
* the move-plan builder `handleConfirm` of the same modal;
* the collateral selection/amount handlers of
  `packages/nextjs/components/specific/collateral/CollateralSelector.tsx`
  and `.../CollateralAmounts.tsx`;
* the collateral price probe of `MovePositionModal.tsx`;
* the price-lookup route `packages/nextjs/app/api/token-info/route.ts`.

Modelling conventions:

* JavaScript `number` is modelled by the rationals `ℚ`.  `NaN` never has
  to be represented separately: the only place a `NaN` could flow through
  the embedded code paths (the price obtained from CoinGecko JSON) is
  observationally identical to the value `0` (`!price` and `price || 0`
  treat `NaN` exactly like `0`), which the model uses instead.  Where a
  non-finite number is a distinct observable (the price probe), a
  dedicated `JsNumber` type with `nan`/infinity constructors is used.
* JavaScript `bigint` is modelled by `ℤ`, strings by `String`.
* React state setters are modelled as pure state-transition functions on
  the state they update; external `fetch` calls are modelled by an
  environment record giving the outcome of each call site.
* The viem helpers `formatUnits`/`parseUnits` and the JS builtin
  `parseFloat` are external libraries; they are modelled as executable
  Lean functions on plain decimal strings (`parseUnits` truncates
  fractional digits beyond `decimals`; exponent notation is not
  modelled).  None of the claims depends on the digits they produce,
  only on which value is parsed/printed for concrete small inputs.
-/

/-- Model of the viem `formatUnits(value, decimals)` helper: prints a
`bigint` as a decimal string scaled down by `10 ^ decimals`, with
trailing zeros of the fraction removed. -/
def formatUnits (value : Int) (decimals : Nat) : String :=
  let s := (Int.natAbs value).repr.toList
  let padded := List.replicate (decimals - s.length) '0' ++ s
  let n := padded.length
  let intPart := padded.take (n - decimals)
  let fracPart := padded.drop (n - decimals)
  let fracTrimmed := (fracPart.reverse.dropWhile (fun c => c == '0')).reverse
  (if value < 0 then "-" else "")
    ++ (if intPart.isEmpty then "0" else String.mk intPart)
    ++ (if fracTrimmed.isEmpty then "" else "." ++ String.mk fracTrimmed)

/-- Numeric value of a list of decimal digit characters. -/
def digitsToNat (cs : List Char) : Nat :=
  cs.foldl (fun n c => n * 10 + (c.toNat - '0'.toNat)) 0

/-- Model of the viem `parseUnits(value, decimals)` helper: parses a
decimal string into a `bigint` scaled by `10 ^ decimals`; `none` models
the exception thrown on a malformed string.  Fractional digits beyond
`decimals` are truncated in this model (viem rounds them; no claim
depends on that difference). -/
def parseUnits (s : String) (decimals : Nat) : Option Int :=
  let (neg, cs) :=
    match s.toList with
    | '-' :: rest => (true, rest)
    | cs => (false, cs)
  let intDigits := cs.takeWhile Char.isDigit
  let rest := cs.dropWhile Char.isDigit
  let build (frac : List Char) : Option Int :=
    let fracUsed := (frac.take decimals) ++ List.replicate (decimals - frac.length) '0'
    let mag : Int := (digitsToNat intDigits : Int) * (10 : Int) ^ decimals + (digitsToNat fracUsed : Int)
    some (if neg then -mag else mag)
  match rest with
  | [] => if intDigits.isEmpty then none else build []
  | '.' :: frac =>
    if frac.all Char.isDigit ∧ ¬(intDigits.isEmpty ∧ frac.isEmpty) then build frac else none
  | _ => none

/-- Model of the JS builtin `parseFloat` on the plain decimal strings
produced by this UI: optional sign, integer digits, optional fraction;
any trailing characters are ignored (as `parseFloat` does); `none`
models `NaN`. -/
def parseFloat (s : String) : Option ℚ :=
  let cs := s.toList.dropWhile Char.isWhitespace
  let (neg, cs) : Bool × List Char :=
    match cs with
    | '-' :: rest => (true, rest)
    | '+' :: rest => (false, rest)
    | cs => (false, cs)
  let intDigits := cs.takeWhile Char.isDigit
  let rest := cs.dropWhile Char.isDigit
  let frac : List Char :=
    match rest with
    | '.' :: r => r.takeWhile Char.isDigit
    | _ => []
  if intDigits.isEmpty ∧ frac.isEmpty then none
  else
    let mag : Int := (digitsToNat intDigits : Int) * (10 : Int) ^ frac.length
      + (digitsToNat frac : Int)
    some (mkRat (if neg then -mag else mag) ((10 : Nat) ^ frac.length))

/-- Model of JS `String.prototype.toLowerCase()` on the ASCII strings
this code handles (kernel-reducible, unlike `String.toLower`). -/
def toLowerStr (s : String) : String := String.mk (s.toList.map Char.toLower)

/-- Model of JS `String.prototype.trim()` (kernel-reducible, unlike
`String.trim`). -/
def trimStr (s : String) : String :=
  String.mk (((s.toList.dropWhile Char.isWhitespace).reverse.dropWhile
    Char.isWhitespace).reverse)

/-- A collateral row as consumed by the health-factor calculator of
`MovePositionModal.tsx`: the fields of `CollateralToken` that the
calculator reads, plus the four optional basis-point fields probed by
`getLtBps`. -/
structure Collat where
  address : String
  rawBalance : Int
  decimals : Nat
  liquidationThresholdBps : Option ℚ
  collateralFactorBps : Option ℚ
  ltBps : Option ℚ
  ltvBps : Option ℚ
  deriving DecidableEq

/-- `CollateralWithAmount` from `CollateralSelector.tsx`. -/
structure CollateralWithAmount where
  token : String
  amount : Int
  symbol : String
  decimals : Nat
  maxAmount : Int
  inputValue : Option String
  supported : Bool
  deriving DecidableEq

/-- `getLtBps` from `MovePositionModal.tsx`: first available of the four
basis-point fields, defaulting to `8273`, clamped into `[0, 10000]`. -/
def getLtBps (c : Collat) : ℚ :=
  let bps := ((((c.liquidationThresholdBps).or c.collateralFactorBps).or c.ltBps).or
      c.ltvBps).getD 8273
  max 0 (min 10000 bps)

/-- `price8` from `MovePositionModal.tsx`: price-map lookup at the
lowercased address, defaulting to `0n`. -/
def price8 (addr : String) (tokenToPrices : String → Option Int) : Int :=
  (tokenToPrices (toLowerStr addr)).getD 0

/-- `toUsd` from `MovePositionModal.tsx`. -/
def toUsd (amount : Int) (decimals : Nat) (p8 : Int) : ℚ :=
  if p8 = 0 ∨ amount = 0 then 0
  else ((amount : ℚ) / (10 : ℚ) ^ decimals) * ((p8 : ℚ) / (10 : ℚ) ^ (8 : Nat))

/-- The `movedByAddr` map built at the start of `computeHF`: total moved
amount recorded under a lowercased address.  (The source skips entries
with an empty address; those only ever land under the key `""`, which
the collateral loop never looks up, so the skip is observationally
irrelevant and omitted.) -/
def movedAmt (moved : List CollateralWithAmount) (addr : String) : Int :=
  (moved.filter (fun m => (toLowerStr m.token) == addr)).foldl (fun s m => s + m.amount) 0

/-- The collateral loop of `computeHF`: the accumulated
`weightedCollUsd`. -/
def weightedCollUsd (all : List Collat) (moved : List CollateralWithAmount)
    (tokenToPrices : String → Option Int) : ℚ :=
  all.foldl (fun acc c =>
    let addr := (toLowerStr c.address)
    if addr = "" then acc
    else
      let lt := getLtBps c / 10000
      if lt ≤ 0 then acc
      else
        let remaining := c.rawBalance - movedAmt moved addr
        if remaining ≤ 0 then acc
        else
          let p8 := price8 addr tokenToPrices
          if p8 = 0 then acc
          else acc + toUsd remaining c.decimals p8 * lt) 0

/-- `computeHF` from `MovePositionModal.tsx`.  The source's
`!isFinite(totalDebtUsd)` guard has no counterpart: every `ℚ` is
finite. -/
def computeHF (all : List Collat) (moved : List CollateralWithAmount)
    (tokenToPrices : String → Option Int) (totalDebtUsd : ℚ) : ℚ :=
  if totalDebtUsd ≤ 0 then 999
  else weightedCollUsd all moved tokenToPrices / totalDebtUsd

/-- The `totalColl` sum of the `currentHF` memo in the `unnamed/part_000`
variant of the modal: unweighted USD value of the full raw balances. -/
def part000TotalColl (colls : List Collat) (tokenToPrices : String → Option Int) : ℚ :=
  colls.foldl (fun sum c =>
    let usd :=
      match tokenToPrices (toLowerStr c.address) with
      | some p => if p = 0 then 0 else ((c.rawBalance : ℚ) / (10 : ℚ) ^ c.decimals) * ((p : ℚ) / (10 : ℚ) ^ (8 : Nat))
      | none => 0
    sum + usd) 0

/-- The `currentHF` memo of the `unnamed/part_000` variant: sentinel 999
when either the debt or the collateral total is zero. -/
def part000CurrentHF (colls : List Collat) (tokenToPrices : String → Option Int)
    (positionBalance : ℚ) (debtPrice : Int) : ℚ :=
  let totalColl := part000TotalColl colls tokenToPrices
  let totalDebt := |positionBalance| * ((debtPrice : ℚ) / (10 : ℚ) ^ (8 : Nat))
  if totalDebt = 0 ∨ totalColl = 0 then 999
  else totalColl / totalDebt

/-- Per-element contribution of the `computeHF` collateral loop (proof
helper; the embedded definition itself is the source's fold). -/
def collContrib (moved : List CollateralWithAmount)
    (tokenToPrices : String → Option Int) (c : Collat) : ℚ :=
  let addr := (toLowerStr c.address)
  if addr = "" then 0
  else
    let lt := getLtBps c / 10000
    if lt ≤ 0 then 0
    else
      let remaining := c.rawBalance - movedAmt moved addr
      if remaining ≤ 0 then 0
      else
        let p8 := price8 addr tokenToPrices
        if p8 = 0 then 0
        else toUsd remaining c.decimals p8 * lt

theorem foldl_add_map_sum {α : Type} (g : α → ℚ) (l : List α) (a : ℚ) :
    l.foldl (fun acc c => acc + g c) a = a + (l.map g).sum := by
  induction l generalizing a with
  | nil => simp
  | cons c rest ih => simp [ih, add_assoc]

theorem weightedCollUsd_eq_sum (all : List Collat) (moved : List CollateralWithAmount)
    (tokenToPrices : String → Option Int) :
    weightedCollUsd all moved tokenToPrices
      = (all.map (collContrib moved tokenToPrices)).sum := by
  unfold weightedCollUsd
  have hstep : (fun (acc : ℚ) (c : Collat) =>
      let addr := (toLowerStr c.address)
      if addr = "" then acc
      else
        let lt := getLtBps c / 10000
        if lt ≤ 0 then acc
        else
          let remaining := c.rawBalance - movedAmt moved addr
          if remaining ≤ 0 then acc
          else
            let p8 := price8 addr tokenToPrices
            if p8 = 0 then acc
            else acc + toUsd remaining c.decimals p8 * lt)
      = fun acc c => acc + collContrib moved tokenToPrices c := by
    funext acc c
    simp only [collContrib]
    split_ifs <;> simp
  rw [hstep, foldl_add_map_sum]
  simp

theorem weightedCollUsd_cons (c : Collat) (rest : List Collat)
    (moved : List CollateralWithAmount) (tokenToPrices : String → Option Int) :
    weightedCollUsd (c :: rest) moved tokenToPrices
      = collContrib moved tokenToPrices c + weightedCollUsd rest moved tokenToPrices := by
  rw [weightedCollUsd_eq_sum, weightedCollUsd_eq_sum]
  simp

/-- C1 (amended). `computeHF` returns the sentinel 999 exactly on
non-positive total debt; with positive debt it returns the weighted
collateral USD value divided by the debt (in particular `0`, not 999,
when the weighted collateral value is zero), so it never divides by
zero.  The `unnamed/part_000` variant `currentHF` does additionally
return 999 on zero total collateral. -/
theorem computeHF_sentinel_and_ratio (all : List Collat) (moved : List CollateralWithAmount)
    (tokenToPrices : String → Option Int) (totalDebtUsd : ℚ)
    (colls : List Collat) (prices : String → Option Int) (bal : ℚ) (dp : Int) :
    (totalDebtUsd ≤ 0 → computeHF all moved tokenToPrices totalDebtUsd = 999)
    ∧ (0 < totalDebtUsd →
        computeHF all moved tokenToPrices totalDebtUsd
          = weightedCollUsd all moved tokenToPrices / totalDebtUsd)
    ∧ (0 < totalDebtUsd → weightedCollUsd all moved tokenToPrices = 0 →
        computeHF all moved tokenToPrices totalDebtUsd = 0)
    ∧ (part000TotalColl colls prices = 0 → part000CurrentHF colls prices bal dp = 999) := by
  refine ⟨?_, ?_, ?_, ?_⟩
  · intro h
    simp [computeHF, h]
  · intro h
    simp [computeHF, not_le.mpr h]
  · intro h hz
    simp [computeHF, not_le.mpr h, hz]
  · intro h
    simp [part000CurrentHF, h]

/-- Witness for `computeHF_sentinel_and_ratio` at concrete inputs. -/
theorem computeHF_sentinel_and_ratio_witness :
    computeHF [] [] (fun _ => none) 0 = 999
    ∧ computeHF [] [] (fun _ => none) 2 = weightedCollUsd [] [] (fun _ => none) / 2
    ∧ computeHF [] [] (fun _ => none) 2 = 0
    ∧ part000CurrentHF [] (fun _ => none) 1 5 = 999 := by
  obtain ⟨h1, h2, h3, h4⟩ :=
    computeHF_sentinel_and_ratio [] [] (fun _ => none) 0 [] (fun _ => none) 1 5
  obtain ⟨_, h2', h3', _⟩ :=
    computeHF_sentinel_and_ratio [] [] (fun _ => none) 2 [] (fun _ => none) 1 5
  exact ⟨h1 le_rfl, h2' (by norm_num), h3' (by norm_num) (by decide),
    h4 (by decide)⟩

/-- C1 counterexample: with an empty collateral list (total collateral
value zero) and positive debt, `computeHF` returns `0`, not the
sentinel 999 the claim requires. -/
theorem computeHF_zero_collateral_not_sentinel :
    computeHF [] [] (fun _ => none) 1 = 0 ∧ (0 : ℚ) ≠ 999 := by
  constructor
  · simp [computeHF, weightedCollUsd]
  · norm_num

/-- C4. A collateral asset with none of the four threshold fields gets
the fixed default of 8273 basis points; `getLtBps` is always clamped
into `[0, 10000]`; and `computeHF` weights such an asset's USD value by
exactly `8273 / 10000`. -/
theorem getLtBps_default_and_weighting (c c' : Collat) (rest : List Collat)
    (moved : List CollateralWithAmount) (tokenToPrices : String → Option Int) (debt : ℚ)
    (hna : c.liquidationThresholdBps = none) (hnb : c.collateralFactorBps = none)
    (hnc : c.ltBps = none) (hnd : c.ltvBps = none) :
    getLtBps c = 8273
    ∧ (0 ≤ getLtBps c' ∧ getLtBps c' ≤ 10000)
    ∧ (0 < debt → (toLowerStr c.address) ≠ "" →
        0 < c.rawBalance - movedAmt moved (toLowerStr c.address) →
        price8 (toLowerStr c.address) tokenToPrices ≠ 0 →
        computeHF (c :: rest) moved tokenToPrices debt
          = (toUsd (c.rawBalance - movedAmt moved (toLowerStr c.address)) c.decimals
                (price8 (toLowerStr c.address) tokenToPrices) * (8273 / 10000)
              + weightedCollUsd rest moved tokenToPrices) / debt) := by
  have hdef : getLtBps c = 8273 := by
    simp [getLtBps, hna, hnb, hnc, hnd]
    norm_num
  refine ⟨hdef, ⟨le_max_left 0 _, max_le (by norm_num) (min_le_left _ _)⟩, ?_⟩
  intro hdebt haddr hrem hp8
  have hcontrib : collContrib moved tokenToPrices c
      = toUsd (c.rawBalance - movedAmt moved (toLowerStr c.address)) c.decimals
          (price8 (toLowerStr c.address) tokenToPrices) * (8273 / 10000) := by
    simp only [collContrib, hdef]
    rw [if_neg haddr, if_neg (by norm_num), if_neg (not_le.mpr hrem), if_neg hp8]
  rw [computeHF, if_neg (not_le.mpr hdebt), weightedCollUsd_cons, hcontrib]

/-- Witness for `getLtBps_default_and_weighting` at a concrete
collateral with no threshold data, price 1.0 and balance 100. -/
theorem getLtBps_default_and_weighting_witness :
    getLtBps ⟨"0xA", 100, 0, none, none, none, none⟩ = 8273
    ∧ computeHF [⟨"0xA", 100, 0, none, none, none, none⟩] []
        (fun a => if a = "0xa" then some 100000000 else none) 2
      = (toUsd (100 - movedAmt [] "0xa") 0
            (price8 "0xa" (fun a => if a = "0xa" then some 100000000 else none)) * (8273 / 10000)
          + weightedCollUsd [] [] (fun a => if a = "0xa" then some 100000000 else none)) / 2 := by
  obtain ⟨h1, _, h3⟩ := getLtBps_default_and_weighting
    ⟨"0xA", 100, 0, none, none, none, none⟩ ⟨"0xA", 100, 0, none, none, none, none⟩ [] []
    (fun a => if a = "0xa" then some 100000000 else none) 2 rfl rfl rfl rfl
  exact ⟨h1, h3 (by norm_num) (by decide) (by decide) (by decide)⟩

/-- `CollateralToken` from `CollateralSelector.tsx`. -/
structure CollateralToken where
  symbol : String
  balance : ℚ
  address : String
  decimals : Nat
  rawBalance : Int
  supported : Bool
  deriving DecidableEq

namespace CollateralSelector

/-- The fresh entry `handleCollateralToggle` appends on selection. -/
def newSelection (collateral : CollateralToken) : CollateralWithAmount :=
  { token := collateral.address, amount := 0, symbol := collateral.symbol,
    decimals := collateral.decimals, maxAmount := collateral.rawBalance,
    inputValue := none, supported := collateral.supported }

/-- `handleCollateralToggle` from `CollateralSelector.tsx` as a
state-transition on `selectedCollaterals`.  The source's
`findIndex(...) >= 0` test is the same predicate as `List.any`. -/
def handleCollateralToggle (collateral : CollateralToken)
    (prev : List CollateralWithAmount) : List CollateralWithAmount :=
  if collateral.supported = false ∨ collateral.rawBalance ≤ 0 then prev
  else if prev.any (fun c => c.token == collateral.address) then
    prev.filter (fun c => c.token != collateral.address)
  else
    prev ++ [newSelection collateral]

/-- `handleAmountChange` from `CollateralSelector.tsx` as a
state-transition on `selectedCollaterals`; the `catch` branch of the
source is the `none` case of `parseUnits`. -/
def handleAmountChange (token amountStr : String) (decimals : Nat)
    (prev : List CollateralWithAmount) : List CollateralWithAmount :=
  prev.map (fun c =>
    if c.token = token then
      if amountStr = "" ∨ amountStr = "." then
        { c with amount := 0, inputValue := some amountStr }
      else
        match parseUnits amountStr decimals with
        | none => { c with amount := 0, inputValue := some amountStr }
        | some amount =>
          if amount > c.maxAmount then
            { c with amount := c.maxAmount,
                     inputValue := some (formatUnits c.maxAmount decimals) }
          else
            { c with amount := amount, inputValue := some amountStr }
    else c)

/-- `handleSetMax` from `CollateralSelector.tsx` (the list it passes to
`setSelectedCollaterals` and `onCollateralSelectionChange`). -/
def handleSetMax (token : String)
    (selectedCollaterals : List CollateralWithAmount) : List CollateralWithAmount :=
  match selectedCollaterals.find? (fun c => c.token == token) with
  | none => selectedCollaterals
  | some selected =>
    selectedCollaterals.map (fun c =>
      if c.token = token then
        { c with amount := selected.maxAmount,
                 inputValue := some (formatUnits selected.maxAmount selected.decimals) }
      else c)

end CollateralSelector

namespace CollateralAmounts

/-- `handleAmountChange` from `CollateralAmounts.tsx` (note: no
clamping against `maxAmount`). -/
def handleAmountChange (token amountStr : String) (decimals : Nat)
    (collaterals : List CollateralWithAmount) : List CollateralWithAmount :=
  collaterals.map (fun c =>
    if c.token ≠ token then c
    else
      match parseUnits (if amountStr = "" then "0" else amountStr) decimals with
      | some amount => { c with amount := amount, inputValue := some amountStr }
      | none => { c with amount := 0, inputValue := some amountStr })

end CollateralAmounts

/-- C3 (amended). In `CollateralSelector.tsx`, every write through
`handleAmountChange` or `handleSetMax` keeps `amount <= maxAmount`
(given non-negative maxima and, for MAX, per-token consistent maxima),
and text that parses above the max clamps `amount` to `maxAmount` and
sets the displayed string to the formatted clamped value.  The
`CollateralAmounts.tsx` update path does **not** enforce this (see the
counterexample). -/
theorem selector_amount_writes_clamped (token amountStr : String) (decimals : Nat)
    (prev : List CollateralWithAmount)
    (hinv : ∀ c ∈ prev, 0 ≤ c.maxAmount ∧ c.amount ≤ c.maxAmount)
    (huniq : ∀ c ∈ prev, ∀ c' ∈ prev, c.token = c'.token → c.maxAmount = c'.maxAmount) :
    (∀ c ∈ CollateralSelector.handleAmountChange token amountStr decimals prev,
      c.amount ≤ c.maxAmount)
    ∧ (∀ c ∈ CollateralSelector.handleSetMax token prev, c.amount ≤ c.maxAmount)
    ∧ (∀ (i : Nat) (c : CollateralWithAmount), prev[i]? = some c → c.token = token →
        ∀ a, parseUnits amountStr decimals = some a → c.maxAmount < a →
        (CollateralSelector.handleAmountChange token amountStr decimals prev)[i]?
          = some ⟨c.token, c.maxAmount, c.symbol, c.decimals, c.maxAmount,
              some (formatUnits c.maxAmount decimals), c.supported⟩) := by
  refine ⟨?_, ?_, ?_⟩
  · intro c hc
    rw [CollateralSelector.handleAmountChange, List.mem_map] at hc
    obtain ⟨c0, hc0, rfl⟩ := hc
    obtain ⟨hmax0, hle0⟩ := hinv c0 hc0
    by_cases ht : c0.token = token
    · simp only [ht, if_true, reduceIte]
      by_cases hes : amountStr = "" ∨ amountStr = "."
      · simpa [hes] using hmax0
      · simp only [hes, reduceIte]
        match hp : parseUnits amountStr decimals with
        | none => simpa using hmax0
        | some a =>
          by_cases hgt : a > c0.maxAmount
          · simp [hgt]
          · simpa [hgt] using le_of_not_lt hgt
    · simpa [ht] using hle0
  · intro c hc
    rw [CollateralSelector.handleSetMax] at hc
    match hf : prev.find? (fun c => c.token == token) with
    | none =>
      rw [hf] at hc
      exact (hinv c hc).2
    | some selected =>
      rw [hf, List.mem_map] at hc
      obtain ⟨c0, hc0, rfl⟩ := hc
      have hsel_mem : selected ∈ prev := List.mem_of_find?_eq_some hf
      have hsel_tok : selected.token = token := by
        have := List.find?_some hf
        simpa using this
      by_cases ht : c0.token = token
      · have hmeq : selected.maxAmount = c0.maxAmount :=
          huniq selected hsel_mem c0 hc0 (by rw [hsel_tok, ht])
        simp [ht, hmeq]
      · simpa [ht] using (hinv c0 hc0).2
  · intro i c hget htok a hp hlt
    rw [CollateralSelector.handleAmountChange, List.getElem?_map, hget]
    have hne : amountStr ≠ "" := by
      intro h
      rw [h] at hp
      simp [parseUnits] at hp
    have hnd : amountStr ≠ "." := by
      intro h
      rw [h] at hp
      simp [parseUnits] at hp
    simp only [Option.map_some, htok, if_true, reduceIte, hne, hnd, or_self, hp]
    simp [hlt, htok]

/-- Witness for `selector_amount_writes_clamped`: text "7" on a
collateral with max 5 (decimals 0) clamps to 5 and displays "5". -/
theorem selector_amount_writes_clamped_witness :
    (CollateralSelector.handleAmountChange "0xa" "7" 0
        [⟨"0xa", 0, "T", 0, 5, none, true⟩])[0]?
      = some ⟨"0xa", 5, "T", 0, 5, some (formatUnits 5 0), true⟩ := by
  have h := (selector_amount_writes_clamped "0xa" "7" 0
    [⟨"0xa", 0, "T", 0, 5, none, true⟩] (by decide) (by decide)).2.2
  exact h 0 ⟨"0xa", 0, "T", 0, 5, none, true⟩ (by decide) (by decide) 7 (by decide) (by decide)

/-- C3 counterexample: the `CollateralAmounts.tsx` write path sets an
amount strictly above `maxAmount` (text "7" against max 5), so the
claimed all-paths invariant `amount <= maxAmount` fails there. -/
theorem collateralAmounts_write_exceeds_max :
    CollateralAmounts.handleAmountChange "0xa" "7" 0
        [⟨"0xa", 0, "T", 0, 5, none, true⟩]
      = [⟨"0xa", 7, "T", 0, 5, some "7", true⟩]
    ∧ ¬((7 : Int) ≤ 5) := by
  constructor
  · decide
  · decide

theorem toggle_removes_when_present (collateral : CollateralToken)
    (prev : List CollateralWithAmount)
    (hg : ¬(collateral.supported = false ∨ collateral.rawBalance ≤ 0))
    (hpres : prev.any (fun c => c.token == collateral.address) = true) :
    CollateralSelector.handleCollateralToggle collateral prev
      = prev.filter (fun c => c.token != collateral.address) := by
  rw [CollateralSelector.handleCollateralToggle, if_neg hg, if_pos hpres]

theorem toggle_appends_when_absent (collateral : CollateralToken)
    (prev : List CollateralWithAmount)
    (hg : ¬(collateral.supported = false ∨ collateral.rawBalance ≤ 0))
    (hpres : ¬prev.any (fun c => c.token == collateral.address) = true) :
    CollateralSelector.handleCollateralToggle collateral prev
      = prev ++ [CollateralSelector.newSelection collateral] := by
  rw [CollateralSelector.handleCollateralToggle, if_neg hg, if_neg hpres]

/-- C10. Toggling a collateral twice yields a selection with exactly the
same membership (set of token addresses), and a single toggle of an
unsupported or zero-balance token leaves the selection unchanged. -/
theorem toggle_twice_same_membership (collateral : CollateralToken)
    (prev : List CollateralWithAmount) (addr : String) :
    ((collateral.supported = false ∨ collateral.rawBalance ≤ 0) →
      CollateralSelector.handleCollateralToggle collateral prev = prev)
    ∧ ((∃ c ∈ CollateralSelector.handleCollateralToggle collateral
          (CollateralSelector.handleCollateralToggle collateral prev), c.token = addr)
        ↔ (∃ c ∈ prev, c.token = addr)) := by
  constructor
  · intro hg
    rw [CollateralSelector.handleCollateralToggle, if_pos hg]
  · by_cases hg : collateral.supported = false ∨ collateral.rawBalance ≤ 0
    · rw [CollateralSelector.handleCollateralToggle, if_pos hg,
        CollateralSelector.handleCollateralToggle, if_pos hg]
    · by_cases hpres : prev.any (fun c => c.token == collateral.address) = true
      · -- first toggle removes, second re-adds: membership unchanged
        rw [toggle_removes_when_present collateral prev hg hpres]
        have hfilter_no : ¬((prev.filter (fun c => c.token != collateral.address)).any
            (fun c => c.token == collateral.address)) = true := by
          simp only [List.any_eq_true, not_exists]
          intro c hc
          obtain ⟨hmem, hpred⟩ := hc
          have hne := (List.mem_filter.mp hmem).2
          simp only [bne_iff_ne] at hne
          simp only [beq_iff_eq] at hpred
          exact hne hpred
        rw [toggle_appends_when_absent collateral _ hg hfilter_no]
        have hpres' : ∃ c ∈ prev, c.token = collateral.address := by
          simpa only [List.any_eq_true, beq_iff_eq] using hpres
        constructor
        · rintro ⟨c, hc, rfl⟩
          rcases List.mem_append.mp hc with hc1 | hc1
          · exact ⟨c, (List.mem_filter.mp hc1).1, rfl⟩
          · obtain ⟨c0, hc0, htok⟩ := hpres'
            rw [List.mem_singleton.mp hc1]
            exact ⟨c0, hc0, htok⟩
        · rintro ⟨c, hc, rfl⟩
          by_cases hca : c.token = collateral.address
          · refine ⟨CollateralSelector.newSelection collateral,
              List.mem_append.mpr (Or.inr (List.mem_singleton.mpr rfl)), ?_⟩
            simpa [CollateralSelector.newSelection] using hca.symm
          · exact ⟨c, List.mem_append.mpr (Or.inl (List.mem_filter.mpr
              ⟨hc, by simpa [bne_iff_ne] using hca⟩)), rfl⟩
      · -- first toggle adds, second removes it again: membership unchanged
        rw [toggle_appends_when_absent collateral prev hg hpres]
        have habs : ∀ c ∈ prev, ¬c.token = collateral.address := by
          intro c hc hceq
          apply hpres
          simp only [List.any_eq_true, beq_iff_eq]
          exact ⟨c, hc, hceq⟩
        have hany2 : ((prev ++ [CollateralSelector.newSelection collateral]).any
            (fun c => c.token == collateral.address)) = true := by
          simp [List.any_append, CollateralSelector.newSelection]
        rw [toggle_removes_when_present collateral _ hg hany2]
        constructor
        · rintro ⟨c, hc, rfl⟩
          have hc' := List.mem_filter.mp hc
          rcases List.mem_append.mp hc'.1 with hc1 | hc1
          · exact ⟨c, hc1, rfl⟩
          · exfalso
            have htok : c.token = collateral.address := by
              rw [List.mem_singleton.mp hc1]
              rfl
            have := hc'.2
            simp only [bne_iff_ne] at this
            exact this htok
        · rintro ⟨c, hc, rfl⟩
          exact ⟨c, List.mem_filter.mpr ⟨List.mem_append.mpr (Or.inl hc),
            by simpa [bne_iff_ne] using habs c hc⟩, rfl⟩

/-- Witness for `toggle_twice_same_membership`: an unsupported token's
toggle is a no-op, and the double-toggle membership equivalence at a
concrete selection. -/
theorem toggle_twice_same_membership_witness :
    CollateralSelector.handleCollateralToggle ⟨"T", 1, "0xa", 6, 10, false⟩
        [⟨"0xb", 1, "U", 6, 2, none, true⟩]
      = [⟨"0xb", 1, "U", 6, 2, none, true⟩] :=
  (toggle_twice_same_membership ⟨"T", 1, "0xa", 6, 10, false⟩
    [⟨"0xb", 1, "U", 6, 2, none, true⟩] "0xb").1 (Or.inl rfl)

/-- A JavaScript number as observed by the price probe: a finite
rational or a non-finite value. -/
inductive JsNumber
  | nan
  | posInf
  | negInf
  | val (q : ℚ)
  deriving DecidableEq

/-- The result shape `CollatPriceProbe` reads from `useTokenPriceApi`:
the `isSuccess` flag plus an optional numeric `price` (`none` models a
missing or non-number field). -/
structure ProbeResult where
  isSuccess : Bool
  price : Option JsNumber
  deriving DecidableEq

/-- JS `Math.round` (round half toward positive infinity). -/
def mathRound (q : ℚ) : Int := Int.floor (q + 1 / 2)

/-- One probe/report cycle of `CollatPriceProbe` plus the `onPrice`
handler of the `apiProbes` memo in `MovePositionModal.tsx`, as a
transition on the `tokenToPrices` map.  The probe only reports when
enabled with a non-empty trimmed symbol and the result is a successful,
finite, strictly positive number; the handler drops non-positive
8-decimal prices and otherwise records the price under the lowercased
address.  (The source's skip-if-unchanged branch returns the previous
map object when the value is identical; that is extensionally the same
map as the unconditional update used here.) -/
def probeStep (m : String → Option Int) (enabled : Bool) (symbol : Option String)
    (address : String) (res : ProbeResult) : String → Option Int :=
  let sym := trimStr (symbol.getD "")
  if enabled = false ∨ sym = "" then m
  else
    match res.price with
    | some (JsNumber.val q) =>
      if res.isSuccess = true ∧ 0 < q then
        let p8 := mathRound (q * 100000000)
        if p8 ≤ 0 then m
        else fun a => if a = toLowerStr address then some p8 else m a
      else m
    | _ => m

/-- A probe result that passes every check of the `ok` guard in
`CollatPriceProbe`: successful, numeric, finite and strictly
positive. -/
def probeOk (res : ProbeResult) : Prop :=
  res.isSuccess = true ∧ ∃ q, res.price = some (JsNumber.val q) ∧ 0 < q

theorem probeStep_cases (m : String → Option Int) (enabled : Bool)
    (symbol : Option String) (address : String) (res : ProbeResult) :
    probeStep m enabled symbol address res = m
    ∨ ∃ p8, 0 < p8 ∧ probeOk res
        ∧ probeStep m enabled symbol address res
            = fun a => if a = toLowerStr address then some p8 else m a := by
  unfold probeStep
  by_cases hg : enabled = false ∨ trimStr (symbol.getD "") = ""
  · left
    simp only [hg, if_true, reduceIte]
  · simp only [hg, if_false, reduceIte]
    match hp : res.price with
    | none => left; rfl
    | some JsNumber.nan => left; rfl
    | some JsNumber.posInf => left; rfl
    | some JsNumber.negInf => left; rfl
    | some (JsNumber.val q) =>
      simp only []
      by_cases hok : res.isSuccess = true ∧ 0 < q
      · rw [if_pos hok]
        by_cases hle : mathRound (q * 100000000) ≤ 0
        · left
          rw [if_pos hle]
        · right
          exact ⟨mathRound (q * 100000000), lt_of_not_le hle,
            ⟨hok.1, q, hp, hok.2⟩, by rw [if_neg hle]⟩
      · left
        rw [if_neg hok]

/-- C9. The collateral price map only ever stores strictly positive
prices: positive entries survive every probe step, a map with only
positive entries keeps only positive entries, and a probe result that
is unsuccessful, non-numeric, non-finite, zero or negative leaves the
map unchanged. -/
theorem price_map_only_positive (m : String → Option Int) (enabled : Bool)
    (symbol : Option String) (address : String) (res : ProbeResult) :
    (∀ a p, m a = some p → 0 < p →
      ∃ p2, probeStep m enabled symbol address res a = some p2 ∧ 0 < p2)
    ∧ ((∀ a p, m a = some p → 0 < p) →
        ∀ a p, probeStep m enabled symbol address res a = some p → 0 < p)
    ∧ (¬probeOk res → probeStep m enabled symbol address res = m) := by
  rcases probeStep_cases m enabled symbol address res with heq | ⟨p8, hp8, hok, heq⟩
  · refine ⟨?_, ?_, ?_⟩
    · intro a p hap hpos
      exact ⟨p, by rw [heq]; exact hap, hpos⟩
    · intro hall a p hap
      rw [heq] at hap
      exact hall a p hap
    · intro _
      exact heq
  · refine ⟨?_, ?_, ?_⟩
    · intro a p hap hpos
      rw [heq]
      by_cases ha : a = toLowerStr address
      · exact ⟨p8, by simp [ha], hp8⟩
      · exact ⟨p, by simp [ha, hap], hpos⟩
    · intro hall a p hap
      rw [heq] at hap
      simp only [] at hap
      by_cases ha : a = toLowerStr address
      · rw [if_pos ha] at hap
        cases hap
        exact hp8
      · rw [if_neg ha] at hap
        exact hall a p hap
    · intro hnok
      exact absurd hok hnok

/-- A concrete price map with one positive entry, for the C9 witness. -/
def probeM0 : String → Option Int := fun a => if a = "0xa" then some 5 else none

/-- Witness for `price_map_only_positive`: a failed probe leaves the
map unchanged, and the positive entry survives the step. -/
theorem price_map_only_positive_witness :
    probeStep probeM0 true (some "ETH") "0xA" ⟨false, none⟩ = probeM0
    ∧ ∃ p2, probeStep probeM0 true (some "ETH") "0xA" ⟨false, none⟩ "0xa" = some p2
        ∧ 0 < p2 := by
  obtain ⟨h1, _, h3⟩ :=
    price_map_only_positive probeM0 true (some "ETH") "0xA" ⟨false, none⟩
  refine ⟨h3 ?_, h1 "0xa" 5 (by decide) (by decide)⟩
  intro h
  obtain ⟨_, q, hq, _⟩ := h
  simp at hq

/-- Model of the repeated protocol-name normalisation in
`MovePositionModal.tsx`:
`toLowerCase().replace(/\s+v\d+$/i, "").replace(/\s+/g, "")` — strip a
trailing whitespace-v-digits suffix from the lowercased name, then drop
all whitespace. -/
def stripTrailingVersion (s : String) : String :=
  let rcs := s.toList.reverse
  let ds := rcs.takeWhile Char.isDigit
  let rest1 := rcs.dropWhile Char.isDigit
  if ds.isEmpty then s
  else
    match rest1 with
    | 'v' :: rest2 =>
      let ws := rest2.takeWhile Char.isWhitespace
      if ws.isEmpty then s
      else String.mk ((rest2.dropWhile Char.isWhitespace).reverse)
    | _ => s

def normalizeProtocol (s : String) : String :=
  String.mk ((stripTrailingVersion (toLowerStr s)).toList.filter
    (fun c => !c.isWhitespace))

/-- `position.type` in `MovePositionModal.tsx`. -/
inductive PositionType
  | supply
  | borrow
  deriving DecidableEq

/-- The fields of a `FlashLoanProvider` that the plan builder uses
(the `icon` is pure UI and omitted). -/
structure FlashLoanProvider where
  name : String
  version : String
  providerEnum : Nat
  deriving DecidableEq

/-- Payload of `builder.buildUnlockDebt`. -/
structure UnlockDebtParams where
  fromProtocol : String
  debtToken : String
  expectedDebt : String
  debtDecimals : Nat
  flashVersion : String
  premiumBps : Nat
  bufferBps : Nat
  deriving DecidableEq

/-- The `withdraw` field of `builder.buildMoveCollateral`: either the
withdraw-max sentinel or an exact decimal amount. -/
inductive WithdrawSpec
  | max
  | amount (s : String)
  deriving DecidableEq

/-- Payload of `builder.buildMoveCollateral`. -/
structure MoveCollateralParams where
  fromProtocol : String
  toProtocol : String
  collateralToken : String
  withdraw : WithdrawSpec
  collateralDecimals : Nat
  deriving DecidableEq

/-- Payload of `builder.buildBorrow`. -/
structure BorrowParams where
  mode : String
  toProtocol : String
  token : String
  decimals : Nat
  extraBps : Nat
  approveToRouter : Bool
  deriving DecidableEq

/-- A router instruction emitted by the move builder. -/
inductive RouterInstr
  | unlockDebt (p : UnlockDebtParams)
  | moveCollateral (p : MoveCollateralParams)
  | borrow (p : BorrowParams)
  deriving DecidableEq

/-- The built plan: the ordered instruction list plus the out-of-band
Compound market context set via `builder.setCompoundMarket`. -/
structure MovePlan where
  compoundMarket : Option String
  instrs : List RouterInstr
  deriving DecidableEq

instance : Inhabited MovePlan := ⟨⟨none, []⟩⟩

/-- The inputs read by `handleConfirm` in `MovePositionModal.tsx`:
component props, contract-read results and form state. -/
structure ConfirmInputs where
  userAddress : Option String
  decimals : Option Nat
  destProtocol : String
  fromProtocol : String
  positionType : PositionType
  positionTokenAddress : String
  positionDecimals : Nat
  flashProvider : Option FlashLoanProvider
  isMaxDebt : Bool
  tokenBalance : Option Int
  amount : String
  selectedCollats : List CollateralWithAmount
  deriving DecidableEq

/-- JS falsiness of `string | undefined`. -/
def falsyOptStr : Option String → Bool
  | none => true
  | some s => s = ""

/-- JS falsiness of `number | undefined` (note `0` is falsy). -/
def falsyOptNat : Option Nat → Bool
  | none => true
  | some n => n = 0

/-- The `(decimals as number) || position.decimals` fallback. -/
def decimalsValue (i : ConfirmInputs) : Nat :=
  match i.decimals with
  | some d => if d = 0 then i.positionDecimals else d
  | none => i.positionDecimals

/-- The `buildMoveCollateral` call made for one selected collateral in
`handleConfirm`. -/
def mkMoveCollateral (i : ConfirmInputs) (c : CollateralWithAmount) : RouterInstr :=
  RouterInstr.moveCollateral
    { fromProtocol := i.fromProtocol
      toProtocol := i.destProtocol
      collateralToken := c.token
      withdraw := if c.amount = c.maxAmount then WithdrawSpec.max
                  else WithdrawSpec.amount (formatUnits c.amount c.decimals)
      collateralDecimals := c.decimals }

/-- The `setCompoundMarket` context applied before building
instructions: set when either endpoint normalises to "compound". -/
def compoundMarketCtx (i : ConfirmInputs) : Option String :=
  if normalizeProtocol i.destProtocol = "compound"
      ∨ normalizeProtocol i.fromProtocol = "compound"
  then some i.positionTokenAddress else none

/-- The `debtStr` computed in `handleConfirm`. -/
def debtString (i : ConfirmInputs) : String :=
  if i.isMaxDebt then formatUnits (i.tokenBalance.getD 0) (decimalsValue i)
  else i.amount

/-- The `n = parseFloat(debtStr || "0")` value in `handleConfirm`. -/
def debtNumber (i : ConfirmInputs) : Option ℚ :=
  parseFloat (if debtString i = "" then "0" else debtString i)

/-- `handleConfirm` from `MovePositionModal.tsx`, as the plan it builds
(`Except.error` is the thrown `Error` message; the actual submission via
`executeFlowBatchedIfPossible` is an external collaborator). -/
def handleConfirm (i : ConfirmInputs) : Except String MovePlan :=
  if falsyOptStr i.userAddress then Except.error "Connect your wallet."
  else if falsyOptNat i.decimals then Except.error "Token decimals not loaded."
  else if i.destProtocol = "" then Except.error "Select destination protocol."
  else if i.positionType = PositionType.supply then
    Except.error "Supply move not implemented yet."
  else
    match i.flashProvider with
    | none => Except.error "No flash loan provider available."
    | some fp =>
      if debtString i = "" ∨ debtNumber i = none ∨ (debtNumber i).getD 0 ≤ 0 then
        Except.error "Invalid debt amount."
      else if i.isMaxDebt ∧ (i.tokenBalance = none ∨ i.tokenBalance = some 0) then
        Except.error "No outstanding debt."
      else
        Except.ok
          { compoundMarket := compoundMarketCtx i
            instrs :=
              RouterInstr.unlockDebt
                { fromProtocol := i.fromProtocol
                  debtToken := i.positionTokenAddress
                  expectedDebt := debtString i
                  debtDecimals := decimalsValue i
                  flashVersion := fp.version
                  premiumBps := 9
                  bufferBps := 10 }
                :: i.selectedCollats.map (mkMoveCollateral i)
                ++ [RouterInstr.borrow
                      { mode := "coverFlash"
                        toProtocol := i.destProtocol
                        token := i.positionTokenAddress
                        decimals := decimalsValue i
                        extraBps := 5
                        approveToRouter := true }] }

/-- C2. Every successfully built plan consists of exactly one
unlock-debt instruction, then one move-collateral instruction per
selected collateral in selection order, then exactly one terminal
borrow instruction. -/
theorem borrow_plan_shape (i : ConfirmInputs) (plan : MovePlan)
    (h : handleConfirm i = Except.ok plan) :
    ∃ u b, plan.instrs
        = RouterInstr.unlockDebt u
            :: i.selectedCollats.map (mkMoveCollateral i)
            ++ [RouterInstr.borrow b]
      ∧ plan.instrs.length = i.selectedCollats.length + 2 := by
  unfold handleConfirm at h
  repeat' split at h
  any_goals exact Except.noConfusion h
  simp only [Except.ok.injEq] at h
  subst h
  refine ⟨_, _, rfl, ?_⟩
  simp

/-- Decidable equality for `Except`, used to evaluate `handleConfirm`
on concrete inputs. -/
instance instDecEqExcept {e a : Type} [DecidableEq e] [DecidableEq a] :
    DecidableEq (Except e a)
  | Except.error x, Except.error y =>
    if h : x = y then isTrue (by rw [h]) else isFalse (by intro hc; cases hc; exact h rfl)
  | Except.error _, Except.ok _ => isFalse (fun hc => Except.noConfusion hc)
  | Except.ok _, Except.error _ => isFalse (fun hc => Except.noConfusion hc)
  | Except.ok x, Except.ok y =>
    if h : x = y then isTrue (by rw [h]) else isFalse (by intro hc; cases hc; exact h rfl)

/-- A concrete successful borrow-move confirmation, for the C2
witness. -/
def c2Inputs : ConfirmInputs :=
  { userAddress := some "0xuser"
    decimals := some 6
    destProtocol := "Aave V3"
    fromProtocol := "Venus"
    positionType := PositionType.borrow
    positionTokenAddress := "0xdebt"
    positionDecimals := 6
    flashProvider := some ⟨"Balancer V2", "v2", 0⟩
    isMaxDebt := false
    tokenBalance := some 100
    amount := "5"
    selectedCollats := [⟨"0xc1", 2, "WBTC", 8, 2, none, true⟩,
                        ⟨"0xc2", 3, "WETH", 18, 7, none, true⟩] }

/-- The plan `handleConfirm` builds on `c2Inputs`. -/
def c2Plan : MovePlan := ((handleConfirm c2Inputs).toOption).getD default

/-- Witness for `borrow_plan_shape` on the concrete two-collateral
confirmation `c2Inputs`. -/
theorem borrow_plan_shape_witness :
    ∃ u b, c2Plan.instrs
        = RouterInstr.unlockDebt u
            :: c2Inputs.selectedCollats.map (mkMoveCollateral c2Inputs)
            ++ [RouterInstr.borrow b]
      ∧ c2Plan.instrs.length = c2Inputs.selectedCollats.length + 2 :=
  borrow_plan_shape c2Inputs c2Plan (by decide)

/-- C8 (amended). A supply-type confirmation never yields a plan: it
always fails with some thrown message, and with the wallet, decimals
and destination preconditions satisfied the message is exactly
"Supply move not implemented yet.". -/
theorem supply_move_always_rejected (i : ConfirmInputs)
    (hsupply : i.positionType = PositionType.supply) :
    (∃ msg, handleConfirm i = Except.error msg)
    ∧ (falsyOptStr i.userAddress = false → falsyOptNat i.decimals = false →
        i.destProtocol ≠ "" →
        handleConfirm i = Except.error "Supply move not implemented yet.") := by
  constructor
  · unfold handleConfirm
    by_cases h1 : falsyOptStr i.userAddress = true
    · exact ⟨_, by rw [if_pos h1]⟩
    · rw [if_neg h1]
      by_cases h2 : falsyOptNat i.decimals = true
      · exact ⟨_, by rw [if_pos h2]⟩
      · rw [if_neg h2]
        by_cases h3 : i.destProtocol = ""
        · exact ⟨_, by rw [if_pos h3]⟩
        · rw [if_neg h3, if_pos hsupply]
          exact ⟨_, rfl⟩
  · intro h1 h2 h3
    unfold handleConfirm
    rw [if_neg (by rw [h1]; exact Bool.false_ne_true),
      if_neg (by rw [h2]; exact Bool.false_ne_true), if_neg h3, if_pos hsupply]

/-- A supply-type confirmation with all earlier preconditions
satisfied, for the C8 witness. -/
def c8SupplyInputs : ConfirmInputs :=
  { userAddress := some "0xuser"
    decimals := some 6
    destProtocol := "Aave V3"
    fromProtocol := "Venus"
    positionType := PositionType.supply
    positionTokenAddress := "0xdebt"
    positionDecimals := 6
    flashProvider := some ⟨"Balancer V2", "v2", 0⟩
    isMaxDebt := false
    tokenBalance := some 100
    amount := "5"
    selectedCollats := [] }

/-- Witness for `supply_move_always_rejected` at `c8SupplyInputs`. -/
theorem supply_move_always_rejected_witness :
    handleConfirm c8SupplyInputs = Except.error "Supply move not implemented yet." :=
  (supply_move_always_rejected c8SupplyInputs rfl).2 (by decide) (by decide) (by decide)

/-- C8 counterexample: a supply-move attempt with no connected wallet
fails with "Connect your wallet.", not with the claimed
"not implemented" error (the supply check runs only after the wallet,
decimals and destination checks). -/
theorem supply_move_other_error_first :
    handleConfirm { c8SupplyInputs with userAddress := none }
        = Except.error "Connect your wallet."
    ∧ "Connect your wallet." ≠ "Supply move not implemented yet." := by
  constructor
  · rfl
  · decide

/-- Outcome of one `fetch` call site in `route.ts`: the promise
rejected (or `.json()` threw), the response was not `ok`, or it
succeeded with a parsed payload. -/
inductive FetchOutcome (A : Type)
  | throwEx
  | notOk
  | ok (a : A)
  deriving DecidableEq

/-- One CoinGecko search result entry (the fields `route.ts` reads). -/
structure Coin where
  id : String
  symbol : String
  market_cap_rank : Option Nat
  deriving DecidableEq

/-- The external world of one `GET /api/token-info` request: the
outcome of the search call and of each `simple/price` call, keyed by
coin id and vs-currency (repeated calls with the same arguments see
the same outcome).  A search `ok` carries the `coins` array (missing →
`[]`); a price `ok` carries the `json[id][vs]` field, `none` meaning
absent or not a number (a `NaN` number behaves exactly like `0` in
every later check and is modelled as `0`). -/
structure FetchEnv where
  search : FetchOutcome (List Coin)
  simple : String → String → FetchOutcome (Option ℚ)

/-- `Number.MAX_SAFE_INTEGER`. -/
def maxSafeInteger : Nat := 2 ^ 53 - 1

/-- The sort key of the rank comparator in `route.ts`:
`market_cap_rank ?? Number.MAX_SAFE_INTEGER`. -/
def rankKey (c : Coin) : Nat := c.market_cap_rank.getD maxSafeInteger

/-- The candidate pool of `route.ts` lines 31–33: exact
case-insensitive symbol matches when any exist, else the whole result
set. -/
def searchPool (symbol : String) (coins : List Coin) : List Coin :=
  let exact := coins.filter (fun c => toLowerStr c.symbol == toLowerStr symbol)
  if exact.isEmpty then coins else exact

/-- The coin-id resolution of `route.ts` lines 31–42: sort the pool
ascending by `rankKey` (JS `Array.prototype.sort` is stable, as is
`List.mergeSort`) and take the first id; an empty id string is `null`
(`pool[0].id || null`). -/
def resolveId (symbol : String) (coins : List Coin) : Option String :=
  if (searchPool symbol coins).isEmpty then none
  else
    match ((searchPool symbol coins).mergeSort
        (fun a b => rankKey a ≤ rankKey b)).head? with
    | some c => if c.id = "" then none else some c.id
    | none => none

/-- A word character for the JS `\b` boundary: `[A-Za-z0-9_]`. -/
def isWordChar (c : Char) : Bool := c.isAlphanum || c == '_'

/-- Does `text` start with `pat`, with a word boundary right after the
match? -/
def headMatchBounded : List Char → List Char → Bool
  | [], [] => true
  | [], ch :: _ => !isWordChar ch
  | _ :: _, [] => false
  | p :: ps, t :: ts => p == t && headMatchBounded ps ts

/-- Does `pat` occur in `text` with word boundaries on both sides?
`prevW` says whether the character before the current position is a
word character. -/
def boundedOccurs (pat : List Char) : Bool → List Char → Bool
  | _, [] => false
  | prevW, t :: ts =>
    (!prevW && headMatchBounded pat (t :: ts)) || boundedOccurs pat (isWordChar t) ts

/-- Does `text` start with `pat`? -/
def headMatch : List Char → List Char → Bool
  | [], _ => true
  | _ :: _, [] => false
  | p :: ps, t :: ts => p == t && headMatch ps ts

/-- Plain substring occurrence. -/
def containsSub (pat : List Char) : List Char → Bool
  | [] => pat.isEmpty
  | t :: ts => headMatch pat (t :: ts) || containsSub pat ts

/-- The ETH-like regex of `route.ts`:
`\b(w?eth|steth|reth|cbeth|aeth|beth)\b` case-insensitively, with
`w?eth` expanded to the two alternatives `weth` and `eth`. -/
def ethLike (s : String) : Bool :=
  let cs := (toLowerStr s).toList
  ["weth", "eth", "steth", "reth", "cbeth", "aeth", "beth"].any
    (fun p => boundedOccurs p.toList false cs)

/-- The USD-like regex of `route.ts`:
`\busd\b|usdc|usdt|tusd|susd|fdusd|usde|usdd` case-insensitively —
note only the first alternative carries word boundaries. -/
def usdLike (s : String) : Bool :=
  let cs := (toLowerStr s).toList
  boundedOccurs "usd".toList false cs
    || ["usdc", "usdt", "tusd", "susd", "fdusd", "usde", "usdd"].any
        (fun p => containsSub p.toList cs)

/-- The regex fallback id of `route.ts` lines 59–61. -/
def fallbackId (symbol : String) : Option String :=
  if ethLike symbol then some "ethereum"
  else if usdLike symbol then some "usd-coin"
  else none

/-- The search/resolve phase: `Except.error` is a thrown fetch, `ok
none` a non-ok search response (resolvedId stays `null`). -/
def resolveStep (symbol : String) (env : FetchEnv) : Except Unit (Option String) :=
  match env.search with
  | FetchOutcome.throwEx => Except.error ()
  | FetchOutcome.notOk => Except.ok none
  | FetchOutcome.ok coins => Except.ok (resolveId symbol coins)

/-- One `simple/price` fetch as `route.ts` consumes it: a non-ok
response or a non-number field leaves the price at `0`. -/
def simpleFetch (env : FetchEnv) (id vs : String) : Except Unit ℚ :=
  match env.simple id vs with
  | FetchOutcome.throwEx => Except.error ()
  | FetchOutcome.notOk => Except.ok 0
  | FetchOutcome.ok none => Except.ok 0
  | FetchOutcome.ok (some v) => Except.ok v

/-- The primary (specific-token) price resolution: search, then fetch
the resolved id's price (price `0` when nothing resolved). -/
def primaryPrice (symbol vs : String) (env : FetchEnv) : Except Unit ℚ := do
  let rid ← resolveStep symbol env
  match rid with
  | some id => simpleFetch env id vs
  | none => pure 0

/-- The whole `try` body of `GET` in `route.ts`: primary resolution,
regex fallback when the price is still zero, and the final
`price || 0` normalisation. -/
def getBody (symbol vs : String) (env : FetchEnv) : Except Unit ℚ := do
  let price ← primaryPrice symbol vs env
  let price2 ←
    if price = 0 then
      match fallbackId symbol with
      | some fid => simpleFetch env fid vs
      | none => pure price
    else pure price
  pure (if price2 = 0 then 0 else price2)

/-- An HTTP response of the route: status code and the `price` body
field. -/
structure TIResponse where
  status : Nat
  price : ℚ
  deriving DecidableEq

/-- The `vs` query parameter handling: `(get("vs") || "usd").toLowerCase()`. -/
def vsParamValue (vsParam : Option String) : String :=
  toLowerStr (match vsParam with
    | some s => if s = "" then "usd" else s
    | none => "usd")

/-- `GET` from `route.ts`: 400 with price 0 on a missing/blank symbol,
otherwise 200 with the body price; the `catch` maps any thrown fetch
to 200 with price 0. -/
def GET (symbolParam vsParam : Option String) (env : FetchEnv) : TIResponse :=
  let symbol := trimStr (symbolParam.getD "")
  let vs := vsParamValue vsParam
  if symbol = "" then ⟨400, 0⟩
  else
    match getBody symbol vs env with
    | Except.ok p => ⟨200, p⟩
    | Except.error _ => ⟨200, 0⟩

/-- A fetch outcome that did not produce a payload. -/
def FetchOutcome.failed {A : Type} : FetchOutcome A → Bool
  | FetchOutcome.ok _ => false
  | _ => true

/-- C5. A missing, empty or whitespace-only symbol yields exactly
HTTP 400 with price 0; every other request yields HTTP 200 (so no
other status ever occurs), and when the search call and every price
call fail or throw, the body is price 0. -/
theorem token_info_status_spec (symbolParam vsParam : Option String) (env : FetchEnv) :
    (trimStr (symbolParam.getD "") = "" →
      GET symbolParam vsParam env = ⟨400, 0⟩)
    ∧ (trimStr (symbolParam.getD "") ≠ "" →
      (GET symbolParam vsParam env).status = 200)
    ∧ ((GET symbolParam vsParam env).status = 400
        ∨ (GET symbolParam vsParam env).status = 200)
    ∧ (trimStr (symbolParam.getD "") ≠ "" →
        env.search.failed = true →
        (∀ id vs, (env.simple id vs).failed = true) →
        GET symbolParam vsParam env = ⟨200, 0⟩) := by
  have h400 : trimStr (symbolParam.getD "") = "" →
      GET symbolParam vsParam env = ⟨400, 0⟩ := by
    intro h
    unfold GET
    rw [if_pos h]
  have h200 : trimStr (symbolParam.getD "") ≠ "" →
      (GET symbolParam vsParam env).status = 200 := by
    intro h
    unfold GET
    rw [if_neg h]
    match getBody (trimStr (symbolParam.getD "")) (vsParamValue vsParam) env with
    | Except.ok p => rfl
    | Except.error e => rfl
  refine ⟨h400, h200, ?_, ?_⟩
  · by_cases h : trimStr (symbolParam.getD "") = ""
    · left
      rw [h400 h]
    · right
      exact h200 h
  · intro hsym hsearch hsimple
    unfold GET
    rw [if_neg hsym]
    have hbody : getBody (trimStr (symbolParam.getD "")) (vsParamValue vsParam) env
        = Except.ok 0 ∨ getBody (trimStr (symbolParam.getD "")) (vsParamValue vsParam) env
        = Except.error () := by
      set symbol := trimStr (symbolParam.getD "")
      set vs := vsParamValue vsParam
      match hs : env.search with
      | FetchOutcome.throwEx =>
        right
        simp [getBody, primaryPrice, resolveStep, hs, Bind.bind, Except.bind]
      | FetchOutcome.notOk =>
        have hprimary : primaryPrice symbol vs env = Except.ok 0 := by
          simp [primaryPrice, resolveStep, hs, Bind.bind, Except.bind]
          rfl
        match hf : fallbackId symbol with
        | none =>
          left
          simp [getBody, hprimary, hf, Bind.bind, Except.bind]
          rfl
        | some fid =>
          have := hsimple fid vs
          match hsf : env.simple fid vs with
          | FetchOutcome.throwEx =>
            right
            simp [getBody, hprimary, hf, simpleFetch, hsf, Bind.bind, Except.bind]
          | FetchOutcome.notOk =>
            left
            simp [getBody, hprimary, hf, simpleFetch, hsf, Bind.bind, Except.bind]
            rfl
          | FetchOutcome.ok v =>
            rw [hsf] at this
            exact absurd this (by simp [FetchOutcome.failed])
      | FetchOutcome.ok coins =>
        rw [hs] at hsearch
        exact absurd hsearch (by simp [FetchOutcome.failed])
    rcases hbody with hb | hb
    · rw [hb]
    · rw [hb]

/-- An environment in which every external call fails, for the C5
witness. -/
def failEnv : FetchEnv :=
  { search := FetchOutcome.notOk
    simple := fun _ _ => FetchOutcome.throwEx }

/-- Witness for `token_info_status_spec`: a whitespace-only symbol gets
400/price 0, and a normal symbol under total fetch failure gets
200/price 0. -/
theorem token_info_status_spec_witness :
    GET (some "   ") none failEnv = ⟨400, 0⟩
    ∧ GET (some "PEPE") none failEnv = ⟨200, 0⟩ := by
  refine ⟨(token_info_status_spec (some "   ") none failEnv).1 (by decide),
    (token_info_status_spec (some "PEPE") none failEnv).2.2.2 (by decide) (by decide)
      (fun id vs => rfl)⟩

/-- C6. On a non-empty search result set the resolver restricts to the
exact case-insensitive symbol matches when any exist (else the whole
set), and picks from that pool a candidate of minimal `rankKey`
(market-cap rank with `null` mapped to `Number.MAX_SAFE_INTEGER`, so a
`null` rank sorts after every in-range numeric rank); the resolved id
is that candidate's id, with an empty id standing for `null`. -/
theorem resolver_picks_min_rank (symbol : String) (coins : List Coin)
    (hne : coins ≠ []) :
    ∃ c ∈ searchPool symbol coins,
      resolveId symbol coins = (if c.id = "" then none else some c.id)
      ∧ ∀ c2 ∈ searchPool symbol coins, rankKey c ≤ rankKey c2 := by
  have hpool : searchPool symbol coins ≠ [] := by
    unfold searchPool
    by_cases hex : (coins.filter
        (fun c => toLowerStr c.symbol == toLowerStr symbol)).isEmpty = true
    · simpa [hex] using hne
    · rw [if_neg hex]
      intro hnil
      exact hex (by rw [hnil]; rfl)
  have hperm := List.mergeSort_perm (searchPool symbol coins)
    (fun a b => rankKey a ≤ rankKey b)
  have hsorted := @List.sorted_mergeSort Coin
    (fun a b => decide (rankKey a ≤ rankKey b))
    (fun a b c hab hbc => by
      simp only [decide_eq_true_eq] at hab hbc ⊢
      exact le_trans hab hbc)
    (fun a b => by
      simp only [Bool.or_eq_true, decide_eq_true_eq]
      exact Nat.le_total (rankKey a) (rankKey b))
    (searchPool symbol coins)
  match hms : (searchPool symbol coins).mergeSort
      (fun a b => rankKey a ≤ rankKey b) with
  | [] =>
    rw [hms] at hperm
    exact absurd hperm.symm.eq_nil hpool
  | c :: tail =>
    rw [hms] at hperm hsorted
    refine ⟨c, hperm.mem_iff.mp (List.mem_cons_self c tail), ?_, ?_⟩
    · unfold resolveId
      rw [if_neg (by simpa [List.isEmpty_iff] using hpool), hms]
      rfl
    · intro c2 hc2
      rcases (hperm.mem_iff.mpr hc2) with hc2m
      rcases List.mem_cons.mp hc2m with rfl | htail
      · exact le_refl _
      · have := (List.pairwise_cons.mp hsorted).1 c2 htail
        simpa using this

/-- A concrete search result set for the C6 witness: two exact "weth"
matches (ranks 30 and `null`) and a non-matching coin of rank 1. -/
def c6Coins : List Coin :=
  [⟨"bitcoin", "btc", some 1⟩, ⟨"other-weth", "weth", none⟩,
   ⟨"wrapped-e", "weth", some 30⟩]

/-- Witness for `resolver_picks_min_rank` on `c6Coins`. -/
theorem resolver_picks_min_rank_witness :
    ∃ c ∈ searchPool "WETH" c6Coins,
      resolveId "WETH" c6Coins = (if c.id = "" then none else some c.id)
      ∧ ∀ c2 ∈ searchPool "WETH" c6Coins, rankKey c ≤ rankKey c2 :=
  resolver_picks_min_rank "WETH" c6Coins (by decide)

/-- C7 (amended). When the primary price resolution completes with
value zero (search non-ok, no candidate, price response non-ok or
non-numeric, or a zero value — but **not** a thrown fetch, which the
`catch` turns into price 0 with no fallback; see the counterexample),
the body is the ETH-like fallback price of "ethereum", else the
USD-like fallback price of "usd-coin", else it stays 0. -/
theorem fallback_regex_spec (symbol vs : String) (env : FetchEnv)
    (hzero : primaryPrice symbol vs env = Except.ok 0) :
    (ethLike symbol = true →
      getBody symbol vs env
        = (simpleFetch env "ethereum" vs).map (fun p => if p = 0 then 0 else p))
    ∧ (ethLike symbol = false → usdLike symbol = true →
      getBody symbol vs env
        = (simpleFetch env "usd-coin" vs).map (fun p => if p = 0 then 0 else p))
    ∧ (ethLike symbol = false → usdLike symbol = false →
      getBody symbol vs env = Except.ok 0) := by
  refine ⟨?_, ?_, ?_⟩
  · intro heth
    simp only [getBody, hzero, fallbackId, heth, if_true, reduceIte,
      Bind.bind, Except.bind]
    match hsf : simpleFetch env "ethereum" vs with
    | Except.error e => rfl
    | Except.ok p => rfl
  · intro heth husd
    simp only [getBody, hzero, fallbackId, heth, husd, if_true, if_false,
      Bool.false_eq_true, reduceIte, Bind.bind, Except.bind]
    match hsf : simpleFetch env "usd-coin" vs with
    | Except.error e => rfl
    | Except.ok p => rfl
  · intro heth husd
    simp only [getBody, hzero, fallbackId, heth, husd, Bool.false_eq_true,
      reduceIte, Bind.bind, Except.bind]
    rfl

/-- An environment whose search is non-ok and whose "ethereum" price
succeeds, for the C7 witness. -/
def c7WitnessEnv : FetchEnv :=
  { search := FetchOutcome.notOk
    simple := fun id v =>
      if id = "ethereum" ∧ v = "usd" then FetchOutcome.ok (some 42)
      else FetchOutcome.notOk }

/-- Witness for `fallback_regex_spec`: with a failed search (primary
price 0) and symbol "weth", the body is the mapped "ethereum" fetch. -/
theorem fallback_regex_spec_witness :
    getBody "weth" "usd" c7WitnessEnv
      = (simpleFetch c7WitnessEnv "ethereum" "usd").map (fun p => if p = 0 then 0 else p) :=
  (fallback_regex_spec "weth" "usd" c7WitnessEnv (by decide)).1 (by decide)

/-- An environment in which the primary price fetch throws while the
"ethereum" fallback would have succeeded, for the C7 counterexample. -/
def c7ThrowEnv : FetchEnv :=
  { search := FetchOutcome.ok [⟨"weth-coin", "weth", some 5⟩]
    simple := fun id v =>
      if id = "ethereum" ∧ v = "usd" then FetchOutcome.ok (some 42)
      else if id = "weth-coin" then FetchOutcome.throwEx
      else FetchOutcome.notOk }

/-- C7 counterexample: for the ETH-like symbol "weth" the primary
price resolution fails (its fetch throws), yet the route answers
price 0 without consulting the available "ethereum" fallback price of
42 — the claimed "zero or fails → fallback" does not hold for the
thrown case. -/
theorem fallback_skipped_on_thrown_primary :
    GET (some "weth") none c7ThrowEnv = ⟨200, 0⟩
    ∧ c7ThrowEnv.simple "ethereum" "usd" = FetchOutcome.ok (some 42)
    ∧ ethLike "weth" = true
    ∧ (0 : ℚ) ≠ 42 := by
  have hpool : searchPool "weth" [(⟨"weth-coin", "weth", some 5⟩ : Coin)]
      = [(⟨"weth-coin", "weth", some 5⟩ : Coin)] := by decide
  have hres : resolveId "weth" [(⟨"weth-coin", "weth", some 5⟩ : Coin)]
      = some "weth-coin" := by
    unfold resolveId
    rw [hpool, List.mergeSort_singleton]
    rfl
  have hprim : primaryPrice "weth" "usd" c7ThrowEnv = Except.error () := by
    simp only [primaryPrice, resolveStep, c7ThrowEnv, hres, Bind.bind, Except.bind]
    decide
  have hget : GET (some "weth") none c7ThrowEnv = ⟨200, 0⟩ := by
    unfold GET
    rw [if_neg (by decide),
      show trimStr ((some "weth").getD "") = "weth" from by decide,
      show vsParamValue none = "usd" from by decide]
    rw [show getBody "weth" "usd" c7ThrowEnv = Except.error () from by
      simp only [getBody, hprim, Bind.bind, Except.bind]]
  exact ⟨hget, by decide, by decide, by decide⟩
